import Mathlib

/-!
Shallow embedding of the pupil-analysis core of the repository
(`src/services/analysisService.ts`, `src/services/eyeTestService.ts`,
`src/components/CognitiveMetricsChart.tsx`).

Modelling conventions:
* JavaScript strings are modelled as `List Char`; the raw report text is a
  Lean `String` turned into characters with `String.data`.
* JavaScript numbers are idealized as exact rationals.  Where `NaN` and the
  infinities matter (the return values of `parseFloat`, and the diameters
  that flow out of the parser) we use `JSNum`, a rational extended with
  `posInf`, `negInf` and `nan`, with the IEEE-style arithmetic the source
  relies on.  `parseInt` can only produce finite values or `NaN`, so it is
  modelled as `Option Int` (`none` = `NaN`).
* `Math.sqrt` is irrational-valued, so an `EyeStats` record stores the
  *square* of the source's `std` field (field `std2`, the population
  variance); `std = Math.sqrt(std2)` is a strictly monotone function of
  `std2` on nonnegatives, so every comparison or equality about `std` in the
  claims is stated equivalently in terms of `std2`.
* `Math.random()` draws are passed in explicitly as rational parameters
  (each assumed to lie in `[0,1)` where a claim needs it).
* The Firebase writes are external effects; each pipeline is modelled as a
  pure function that returns its result together with the list of records it
  hands to the store (`save…` calls), in call order.
-/

-- The Batteries rational-number operations are `@[irreducible]`, which
-- blocks `decide`-style evaluation of the embedding on concrete reports;
-- restore the default reducibility so concrete runs reduce.
set_option allowUnsafeReducibility true

attribute [semireducible] Rat.mul Rat.inv Rat.add Rat.sub Rat.ofScientific

/-- JavaScript whitespace characters (the ASCII ones; the inputs in this
repository contain no exotic Unicode whitespace). -/
def isWsCh (c : Char) : Bool :=
  c = ' ' || c = '\t' || c = '\n' || c = '\r' || c = '\x0b' || c = '\x0c'

/-- Decimal digit test. -/
def isDigitCh (c : Char) : Bool :=
  '0' ≤ c && c ≤ '9'

/-- Hexadecimal digit test (for `parseInt`'s `0x` handling). -/
def isHexCh (c : Char) : Bool :=
  isDigitCh c || ('a' ≤ c && c ≤ 'f') || ('A' ≤ c && c ≤ 'F')

/-- Numeric value of a hexadecimal digit. -/
def hexVal (c : Char) : Nat :=
  if isDigitCh c then c.toNat - '0'.toNat
  else if 'a' ≤ c && c ≤ 'f' then c.toNat - 'a'.toNat + 10
  else c.toNat - 'A'.toNat + 10

/-- Value of a decimal-digit string, as a natural number. -/
def decValue (ds : List Char) : Nat :=
  ds.foldl (fun a c => a * 10 + (c.toNat - '0'.toNat)) 0

/-- Value of a hexadecimal-digit string. -/
def hexValue (ds : List Char) : Nat :=
  ds.foldl (fun a c => a * 16 + hexVal c) 0

/-- `JavaScript trim`: drop leading and trailing whitespace. -/
def trimChars (s : List Char) : List Char :=
  ((s.dropWhile isWsCh).reverse.dropWhile isWsCh).reverse

/-- `String.prototype.split(c)`: split on every occurrence of `c`,
keeping empty pieces (so `"".split(c) = [""]` and `"a,".split(',') =
["a", ""]`). -/
def splitCharAux (c : Char) : List Char → List Char → List (List Char)
  | [], acc => [acc.reverse]
  | x :: xs, acc =>
    if x = c then acc.reverse :: splitCharAux c xs []
    else splitCharAux c xs (x :: acc)

/-- JavaScript `split` on a single character. -/
def splitChar (s : List Char) (c : Char) : List (List Char) :=
  splitCharAux c s []

/-- Leading sign of a numeric literal: returns `(-1 or 1, rest)`. -/
def splitSign (s : List Char) : Int × List Char :=
  match s with
  | [] => (1, [])
  | x :: r => if x = '+' then (1, r) else if x = '-' then (-1, r) else (1, x :: r)

/-- JavaScript `parseInt(s)` with an undefined radix: skip leading
whitespace, read an optional sign, use radix 16 when the digits start with
`0x`/`0X` and radix 10 otherwise, and parse the longest digit prefix;
`none` models `NaN` (no digits at all). -/
def jsParseInt (s : List Char) : Option Int :=
  let s1 := s.dropWhile isWsCh
  let (sgn, s2) := splitSign s1
  match s2 with
  | a :: b :: r =>
    if a = '0' && (b = 'x' || b = 'X') then
      let ds := r.takeWhile isHexCh
      if ds.isEmpty then none else some (sgn * (hexValue ds : Int))
    else
      let ds := (a :: b :: r).takeWhile isDigitCh
      if ds.isEmpty then none else some (sgn * (decValue ds : Int))
  | s2 =>
    let ds := s2.takeWhile isDigitCh
    if ds.isEmpty then none else some (sgn * (decValue ds : Int))

/-- A JavaScript number as the parser and statistics code see it: an exact
rational, one of the two infinities, or `NaN`. -/
inductive JSNum where
  | num (q : ℚ)
  | posInf
  | negInf
  | nan
  deriving DecidableEq, Repr

namespace JSNum

/-- IEEE addition. -/
def add : JSNum → JSNum → JSNum
  | num a, num b => num (a + b)
  | num _, posInf => posInf
  | posInf, num _ => posInf
  | posInf, posInf => posInf
  | num _, negInf => negInf
  | negInf, num _ => negInf
  | negInf, negInf => negInf
  | posInf, negInf => nan
  | negInf, posInf => nan
  | nan, _ => nan
  | _, nan => nan

/-- IEEE negation. -/
def neg : JSNum → JSNum
  | num a => num (-a)
  | posInf => negInf
  | negInf => posInf
  | nan => nan

/-- IEEE subtraction. -/
def sub (a b : JSNum) : JSNum := a.add b.neg

/-- IEEE squaring (`Math.pow(x, 2)`). -/
def sq : JSNum → JSNum
  | num a => num (a ^ 2)
  | posInf => posInf
  | negInf => posInf
  | nan => nan

/-- IEEE division by a nonnegative integer count (the only divisions the
source performs): `x / 0` is `NaN` for `x = 0` and a signed infinity
otherwise, exactly as in JavaScript. -/
def divNat (a : JSNum) (n : Nat) : JSNum :=
  match n with
  | 0 =>
    match a with
    | num q => if q = 0 then nan else if 0 < q then posInf else negInf
    | posInf => posInf
    | negInf => negInf
    | nan => nan
  | Nat.succ m =>
    match a with
    | num q => num (q / (m + 1 : ℚ))
    | posInf => posInf
    | negInf => negInf
    | nan => nan

/-- IEEE `<`: every comparison against `NaN` is false. -/
def lt : JSNum → JSNum → Bool
  | num a, num b => a < b
  | num _, posInf => true
  | negInf, num _ => true
  | negInf, posInf => true
  | _, _ => false

/-- `Math.min` step (NaN-propagating). -/
def minJS (a b : JSNum) : JSNum :=
  match a, b with
  | nan, _ => nan
  | _, nan => nan
  | x, y => if lt y x then y else x

/-- `Math.max` step (NaN-propagating). -/
def maxJS (a b : JSNum) : JSNum :=
  match a, b with
  | nan, _ => nan
  | _, nan => nan
  | x, y => if lt x y then y else x

end JSNum

/-- `(q : ℚ)` value of a decimal-digit string. -/
def decValueQ (ds : List Char) : ℚ := (decValue ds : ℚ)

/-- Exponent suffix of a float literal: `e`/`E`, optional sign, digits.
Returns `0` when the suffix is absent or incomplete (prefix parsing simply
stops before an incomplete exponent). -/
def parseExp (s : List Char) : Int :=
  match s with
  | [] => 0
  | c :: r =>
    if c = 'e' || c = 'E' then
      let (es, r2) := splitSign r
      let ds := r2.takeWhile isDigitCh
      if ds.isEmpty then 0 else es * (decValue ds : Int)
    else 0

/-- JavaScript `parseFloat(s)`: skip leading whitespace, read an optional
sign, accept an `Infinity` literal or a decimal mantissa (digits, optional
fraction) with an optional exponent, always taking the longest valid
prefix; `none` models `NaN`. -/
def jsParseFloat (s : List Char) : Option JSNum :=
  let s1 := s.dropWhile isWsCh
  let (sgn, s2) := splitSign s1
  if ("Infinity".data).isPrefixOf s2 then
    some (if sgn = -1 then JSNum.negInf else JSNum.posInf)
  else
    let ip := s2.takeWhile isDigitCh
    let s3 := s2.drop ip.length
    let (fp, s4) :=
      match s3 with
      | [] => (([] : List Char), ([] : List Char))
      | c :: r =>
        if c = '.' then (r.takeWhile isDigitCh, r.drop (r.takeWhile isDigitCh).length)
        else (([] : List Char), c :: r)
    if ip.isEmpty && fp.isEmpty then none
    else
      let mant : ℚ := decValueQ ip + decValueQ fp / (10 : ℚ) ^ fp.length
      let ex : Int := parseExp s4
      some (JSNum.num ((sgn : ℚ) * mant * (10 : ℚ) ^ ex))

/-- The two recognized eye kinds (TypeScript union `'left_eye' | 'right_eye'`). -/
inductive EyeKind where
  | left_eye
  | right_eye
  deriving DecidableEq, Repr

/-- One parsed measurement (interface `PupilData`).  The diameter is a
`JSNum` because `parseFloat` can produce infinities. -/
structure PupilData where
  frame : Int
  eye : EyeKind
  diameter : JSNum
  deriving DecidableEq, Repr

/-- Per-eye aggregate (interface `EyeStats`).  `std2` is the square of the
source's `std` field, i.e. the population variance before the final
`Math.sqrt`; see the header comment. -/
structure EyeStats where
  mean : JSNum
  std2 : JSNum
  min : JSNum
  max : JSNum
  deriving DecidableEq, Repr

/-- Fatigue classification (`'low' | 'moderate' | 'high'`). -/
inductive FatigueLevel where
  | low
  | moderate
  | high
  deriving DecidableEq, Repr

/-- State of `parseResultData`'s line loop: accumulated samples, summary
buffer, and the two section flags. -/
structure ParseState where
  pupilData : List PupilData
  summary : List Char
  inSummarySection : Bool
  inCSVSection : Bool
  deriving Repr

/-- Substring test (JavaScript `String.prototype.includes`). -/
def includesStr (l sub : List Char) : Bool := decide (sub <:+: l)

/-- The six eye labels the parser recognizes, already trimmed. -/
def normalizeEye (e : List Char) : List Char :=
  if e = "left_eye".data || e = "right_eye".data then e
  else if e = "left".data || e = "Left".data then "left_eye".data
  else if e = "right".data || e = "Right".data then "right_eye".data
  else e

/-- Body of the `for (const line of lines)` loop in `parseResultData`
(analysisService.ts lines 48-101), one line at a time. -/
def lineStep (st : ParseState) (line : List Char) : ParseState :=
  let t := trimChars line
  if includesStr t "Processed".data && includesStr t "frames".data then
    { st with inSummarySection := true, summary := st.summary ++ t ++ ['\n'] }
  else if t = "--- CSV Data ---".data then
    { st with inCSVSection := true }
  else if t = "Frame,Eye_Type,Diameter_mm".data then
    st
  else if st.inSummarySection && !st.inCSVSection then
    if includesStr t "Eye:".data || includesStr t "Mean:".data ||
        includesStr t "Std:".data || includesStr t "Min:".data ||
        includesStr t "Max:".data then
      { st with summary := st.summary ++ t ++ ['\n'] }
    else st
  else if t.contains ',' then
    match splitChar t ',' with
    | p0 :: p1 :: p2 :: _ =>
      let frame? := jsParseInt p0
      let eyeN := normalizeEye (trimChars p1)
      let diam? := jsParseFloat p2
      match frame?, diam? with
      | some f, some d =>
        if eyeN = "left_eye".data then
          { st with pupilData := st.pupilData ++ [⟨f, EyeKind.left_eye, d⟩] }
        else if eyeN = "right_eye".data then
          { st with pupilData := st.pupilData ++ [⟨f, EyeKind.right_eye, d⟩] }
        else st
      | _, _ => st
    | _ => st
  else st

/-- `parseResultData` (analysisService.ts lines 39-107): split the text on
newlines, drop lines that trim to nothing, run the line loop, and trim the
summary buffer. -/
def parseResultData (resultText : List Char) : List PupilData × List Char :=
  let lines := (splitChar resultText '\n').filter (fun l => !(trimChars l).isEmpty)
  let st := lines.foldl lineStep ⟨[], [], false, false⟩
  (st.pupilData, trimChars st.summary)

/-- `calculateEyeStats` (analysisService.ts lines 112-126): filter to one
eye, zero-fill when empty, otherwise mean, population variance (the source
takes its square root for `std`; we keep the variance in `std2`), and
`Math.min`/`Math.max` folds. -/
def calculateEyeStats (data : List PupilData) (eye : EyeKind) : EyeStats :=
  let eyeData := (data.filter (fun d => d.eye = eye)).map (fun d => d.diameter)
  if eyeData.length = 0 then
    ⟨JSNum.num 0, JSNum.num 0, JSNum.num 0, JSNum.num 0⟩
  else
    let mean := (eyeData.foldl JSNum.add (JSNum.num 0)).divNat eyeData.length
    let variance :=
      (eyeData.foldl (fun s v => s.add ((v.sub mean).sq)) (JSNum.num 0)).divNat
        eyeData.length
    let mn := eyeData.foldl JSNum.minJS JSNum.posInf
    let mx := eyeData.foldl JSNum.maxJS JSNum.negInf
    ⟨mean, variance, mn, mx⟩

/-- `determineFatigueLevel` (analysisService.ts lines 131-158): `moderate`
when both stats are absent, otherwise the average of the *present* means
compared against the 2.2 / 2.6 thresholds. -/
def determineFatigueLevel (leftStats rightStats : Option EyeStats) : FatigueLevel :=
  if leftStats.isNone && rightStats.isNone then FatigueLevel.moderate
  else
    let a1 : JSNum := JSNum.num 0
    let c1 : Nat := 0
    let (a2, c2) :=
      match leftStats with
      | some l => (a1.add l.mean, c1 + 1)
      | none => (a1, c1)
    let (a3, c3) :=
      match rightStats with
      | some r => (a2.add r.mean, c2 + 1)
      | none => (a2, c2)
    let avg := a3.divNat c3
    if avg.lt (JSNum.num (11 / 5)) then FatigueLevel.high
    else if (JSNum.num (13 / 5)).lt avg then FatigueLevel.low
    else FatigueLevel.moderate

/-- JavaScript `Math.round`: half-up rounding toward `+∞`. -/
def jsRound (q : ℚ) : Int := ⌊q + 1 / 2⌋

/-- `generateMockReactionTime` of analysisService.ts (lines 163-184): fixed
base time per level, a continuous pupil adjustment `(3.0 − avg) · 50` when
`avgPupilSize` is truthy (present and nonzero), a `±20 ms` jitter from the
random draw `rand ∈ [0,1)`, rounded and floor-clamped at 200 ms. -/
def generateMockReactionTime (fatigueLevel : FatigueLevel) (avgPupilSize : Option ℚ)
    (rand : ℚ) : Int :=
  let baseTime : ℚ :=
    match fatigueLevel with
    | FatigueLevel.low => 280
    | FatigueLevel.moderate => 350
    | FatigueLevel.high => 450
  let baseTime :=
    match avgPupilSize with
    | some a => if a = 0 then baseTime else baseTime + (3 - a) * 50
    | none => baseTime
  let variation := (rand - 1 / 2) * 40
  max 200 (jsRound (baseTime + variation))

/-- The `baseTime` computed by the `switch` of eyeTestService.ts's
`generateMockReactionTime` (lines 43-56), `rand ∈ [0,1)` being the
`Math.random()` draw. -/
def baseReactionTimeET (fatigueLevel : FatigueLevel) (rand : ℚ) : ℚ :=
  250 +
    (match fatigueLevel with
     | FatigueLevel.low => rand * 50
     | FatigueLevel.moderate => 50 + rand * 100
     | FatigueLevel.high => 150 + rand * 150)

/-- `generateMockReactionTime` of eyeTestService.ts (lines 42-68): uniform
base time per level, then a discrete pupil adjustment (+50 below 2.0, −25
above 3.0) when `avgPupilSize` is truthy, rounded with no clamp. -/
def generateMockReactionTimeET (fatigueLevel : FatigueLevel) (avgPupilSize : Option ℚ)
    (rand : ℚ) : Int :=
  let baseTime : ℚ := baseReactionTimeET fatigueLevel rand
  let baseTime :=
    match avgPupilSize with
    | some a =>
      if a = 0 then baseTime
      else if a < 2 then baseTime + 50
      else if 3 < a then baseTime - 25
      else baseTime
    | none => baseTime
  jsRound baseTime

/-- Finite projection of a `JSNum` (`none` for `NaN` and the infinities).
Used only at the modelling boundary where a pipeline hands its
`avgPupilSize` to the mock reaction-time generator; no claim exercises
that hand-off with non-finite data. -/
def JSNum.toQ : JSNum → Option ℚ
  | JSNum.num q => some q
  | _ => none

/-- `Math.max(...frames)` over a list of integers; the empty case is
unreachable in the source (both pipelines guard on a nonempty sample
list before computing `frameCount`). -/
def jsMaxInt (l : List Int) : Int :=
  match l with
  | [] => 0
  | x :: xs => xs.foldl max x

/-- The assembled analysis record (interface `AnalysisData`).  The opaque
pass-through fields (`analysisUrl`, `metadata`, `settings`) carry no logic
and are not modelled. -/
structure AnalysisData where
  leftEyeStats : Option EyeStats
  rightEyeStats : Option EyeStats
  summary : List Char
  fatigueLevel : FatigueLevel
  pupilData : List PupilData
  frameCount : Int
  reactionTime : Int
  deriving DecidableEq, Repr

/-- Adjacent-pair blink count of `calculateBlinkStats`
(eyeTestService.ts lines 73-92): a blink is a same-eye drop of more than
0.5 mm between consecutive samples. -/
def countBlinks : List PupilData → Nat
  | a :: b :: rest =>
    (if a.eye = b.eye && JSNum.lt (JSNum.num (1 / 2)) (a.diameter.sub b.diameter)
     then 1 else 0) + countBlinks (b :: rest)
  | _ => 0

/-- `calculateBlinkStats`: blink count plus blinks per minute. -/
def calculateBlinkStats (pupilData : List PupilData) (testDuration : ℚ) : Nat × ℚ :=
  let blinkCount := countBlinks pupilData
  (blinkCount, (blinkCount : ℚ) / testDuration * 60)

/-- `generateEyeMovementPattern` (eyeTestService.ts lines 97-106): random
pick from the level's vocabulary, `rand ∈ [0,1)` being the draw. -/
def generateEyeMovementPattern (fatigueLevel : FatigueLevel) (rand : ℚ) : List Char :=
  let patternOptions : List (List Char) :=
    match fatigueLevel with
    | FatigueLevel.low => ["smooth".data, "precise".data, "coordinated".data]
    | FatigueLevel.moderate =>
      ["slightly irregular".data, "mostly coordinated".data, "minor tremor".data]
    | FatigueLevel.high =>
      ["irregular".data, "uncoordinated".data, "significant tremor".data,
        "delayed".data]
  patternOptions.getD (⌊rand * patternOptions.length⌋).toNat []

/-- `generateFocusAccuracy` (eyeTestService.ts lines 111-127). -/
def generateFocusAccuracy (fatigueLevel : FatigueLevel) (rand : ℚ) : Int :=
  jsRound
    (match fatigueLevel with
     | FatigueLevel.low => 90 + rand * 10
     | FatigueLevel.moderate => 75 + rand * 15
     | FatigueLevel.high => 60 + rand * 15)

/-- The eye-test record (interface `EyeTestData`), pass-through fields
omitted as in `AnalysisData`. -/
structure EyeTestData where
  leftEyeStats : Option EyeStats
  rightEyeStats : Option EyeStats
  summary : List Char
  fatigueLevel : FatigueLevel
  pupilData : List PupilData
  frameCount : Int
  reactionTime : Int
  testType : List Char
  testDuration : ℚ
  blinkCount : Nat
  averageBlinkRate : ℚ
  eyeMovementPattern : List Char
  focusAccuracy : Int
  visualAcuity : ℚ
  contrastSensitivity : ℚ
  deriving DecidableEq, Repr

/-- The independent `Math.random()` draws made on one run of the eye-test
pipeline, in source order. -/
structure Randoms where
  rtRand : ℚ
  patRand : ℚ
  focRand : ℚ
  conRand : ℚ
  deriving DecidableEq, Repr

/-- The `avgPupilSize` block shared by both pipelines (analysisService.ts
lines 256-266, eyeTestService.ts lines 161-171): average of the per-eye
means restricted to eyes with mean `> 0`, `undefined` (`none`) when
neither qualifies. -/
def combinedAvgPupilSize (leftEyeStats rightEyeStats : EyeStats) : Option ℚ :=
  let a1 : JSNum := JSNum.num 0
  let (a2, c2) :=
    if JSNum.lt (JSNum.num 0) leftEyeStats.mean then (a1.add leftEyeStats.mean, 1)
    else (a1, 0)
  let (a3, c3) :=
    if JSNum.lt (JSNum.num 0) rightEyeStats.mean then (a2.add rightEyeStats.mean, c2 + 1)
    else (a2, c2)
  if c3 = 0 then none else (a3.divNat c3).toQ

/-- `processEyeTestResult` (eyeTestService.ts lines 132-226) as a pure
function: the returned list is the sequence of records handed to
`saveEyeTestResult` (assumed to succeed; a store failure only changes the
`success` flag, which no claim inspects on the success path). -/
def processEyeTestResult (resultText : List Char) (rnd : Randoms)
    (testType : List Char) (testDuration : ℚ) :
    Except String EyeTestData × List EyeTestData :=
  let parsed := parseResultData resultText
  let pupilData := parsed.1
  if pupilData.length = 0 then
    (Except.error "No valid pupil data found in results", [])
  else
    let leftEyeStats := calculateEyeStats pupilData EyeKind.left_eye
    let rightEyeStats := calculateEyeStats pupilData EyeKind.right_eye
    let fatigueLevel := determineFatigueLevel (some leftEyeStats) (some rightEyeStats)
    let avgPupilSize := combinedAvgPupilSize leftEyeStats rightEyeStats
    let reactionTime := generateMockReactionTimeET fatigueLevel avgPupilSize rnd.rtRand
    let blink := calculateBlinkStats pupilData testDuration
    let visualAcuity : ℚ :=
      match fatigueLevel with
      | FatigueLevel.low => 20 / 20
      | FatigueLevel.moderate => 20 / 25
      | FatigueLevel.high => 20 / 30
    let contrastSensitivity : ℚ :=
      match fatigueLevel with
      | FatigueLevel.low => 95 + rnd.conRand * 5
      | FatigueLevel.moderate => 80 + rnd.conRand * 15
      | FatigueLevel.high => 65 + rnd.conRand * 15
    let record : EyeTestData :=
      { leftEyeStats := if JSNum.lt (JSNum.num 0) leftEyeStats.mean
          then some leftEyeStats else none
        rightEyeStats := if JSNum.lt (JSNum.num 0) rightEyeStats.mean
          then some rightEyeStats else none
        summary := parsed.2
        fatigueLevel := fatigueLevel
        pupilData := pupilData
        frameCount := jsMaxInt (pupilData.map (fun d => d.frame)) + 1
        reactionTime := reactionTime
        testType := testType
        testDuration := testDuration
        blinkCount := blink.1
        averageBlinkRate := (jsRound (blink.2 * 10) : ℚ) / 10
        eyeMovementPattern := generateEyeMovementPattern fatigueLevel rnd.patRand
        focusAccuracy := generateFocusAccuracy fatigueLevel rnd.focRand
        visualAcuity := visualAcuity
        contrastSensitivity := (jsRound (contrastSensitivity * 10) : ℚ) / 10 }
    (Except.ok record, [record])

/-- `processAndSaveAnalysis` (analysisService.ts lines 230-327) as a pure
function.  `rtRand` is this pipeline's own reaction-time draw and `rndET`
the draws of the nested eye-test run; the second and third components are
the records handed to `saveAnalysisResult` and (through
`processEyeTestResult`) to `saveEyeTestResult`, in call order. -/
def processAndSaveAnalysis (resultText : List Char) (rtRand : ℚ) (rndET : Randoms) :
    Except String AnalysisData × List AnalysisData × List EyeTestData :=
  let parsed := parseResultData resultText
  let pupilData := parsed.1
  if pupilData.length = 0 then
    (Except.error "No valid pupil data found in results", [], [])
  else
    let leftEyeStats := calculateEyeStats pupilData EyeKind.left_eye
    let rightEyeStats := calculateEyeStats pupilData EyeKind.right_eye
    let fatigueLevel := determineFatigueLevel (some leftEyeStats) (some rightEyeStats)
    let avgPupilSize := combinedAvgPupilSize leftEyeStats rightEyeStats
    let reactionTime := generateMockReactionTime fatigueLevel avgPupilSize rtRand
    let analysisData : AnalysisData :=
      { leftEyeStats := if JSNum.lt (JSNum.num 0) leftEyeStats.mean
          then some leftEyeStats else none
        rightEyeStats := if JSNum.lt (JSNum.num 0) rightEyeStats.mean
          then some rightEyeStats else none
        summary := parsed.2
        fatigueLevel := fatigueLevel
        pupilData := pupilData
        frameCount := jsMaxInt (pupilData.map (fun d => d.frame)) + 1
        reactionTime := reactionTime }
    let eyeTest := processEyeTestResult resultText rndET "pupil_analysis".data 30
    (Except.ok analysisData, [analysisData], eyeTest.2)

/-- One point of the dashboard's daily series (interface `DataPoint` of
CognitiveMetricsChart.tsx; the upstream chart code guarantees a finite
rational `pupilDiameter`). -/
structure DataPoint where
  time : List Char
  pupilDiameter : ℚ
  reactionTime : Option ℚ
  deriving DecidableEq, Repr

/-- Trend labels returned by `generateConclusions`. -/
inductive Trend where
  | insufficient
  | declining
  | improving
  | variable_
  | stable
  deriving DecidableEq, Repr

/-- Sum by `reduce((sum, val) => sum + val, 0)`. -/
def sumQ (xs : List ℚ) : ℚ := xs.foldl (· + ·) 0

/-- `generateConclusions` (CognitiveMetricsChart.tsx lines 89-145), trend
label only (message/recommendation/icon/color are a fixed lookup on the
label).  The source compares `Math.sqrt(variance) > 0.15`; since both
sides are nonnegative this is equivalent to `variance > 0.15²  = 9/400`,
which is how the comparison is rendered here (`ℚ` has no square root). -/
def generateConclusions (data : List DataPoint) : Trend :=
  if data.length < 2 then Trend.insufficient
  else
    let pupilSizes := data.map (fun d => d.pupilDiameter)
    let firstHalf := pupilSizes.take ((pupilSizes.length + 1) / 2)
    let secondHalf := pupilSizes.drop ((pupilSizes.length + 1) / 2)
    let firstHalfAvg := sumQ firstHalf / firstHalf.length
    let secondHalfAvg := sumQ secondHalf / secondHalf.length
    let pupilTrend := secondHalfAvg - firstHalfAvg
    let variance :=
      (pupilSizes.foldl
        (fun s v => s + (v - sumQ pupilSizes / pupilSizes.length) ^ 2) 0) /
        pupilSizes.length
    if pupilTrend < -(1 / 10) then Trend.declining
    else if pupilTrend > 1 / 10 then Trend.improving
    else if variance > 9 / 400 then Trend.variable_
    else Trend.stable

/-- The bundled sample report (`loadSampleAnalysisData`,
analysisService.ts lines 335-386), verbatim. -/
def sampleResultText : String :=
"37,left_eye,2.300457715988159
38,left_eye,2.3212697505950928
39,left_eye,2.3268024921417236
40,left_eye,2.325519323348999
41,left_eye,2.3016486167907715
42,left_eye,2.2915494441986084
43,left_eye,2.307129144668579
44,left_eye,2.3017423152923584
45,left_eye,2.306887149810791
46,left_eye,2.287179708480835
47,left_eye,2.2922284603118896
48,left_eye,2.2548787593841553
49,left_eye,2.260747194290161
50,left_eye,2.299243927001953
0,right_eye,2.2755913734436035
1,right_eye,2.2151496410369873
2,right_eye,2.203460454940796
3,right_eye,2.2932863235473633
4,right_eye,2.2873587608337402
5,right_eye,2.322633981704712
6,right_eye,2.327956199645996
7,right_eye,2.310279607772827
8,right_eye,2.3053176403045654
9,right_eye,2.301894187927246
10,right_eye,2.328364610671997
11,right_eye,2.358999490737915
12,right_eye,2.3684120178222656
13,right_eye,2.3732266426086426
14,right_eye,2.3003456592559814

Processed 255 frames

Left Eye:
  Mean: 2.40 mm
  Std: 0.11 mm
  Min: 2.20 mm
  Max: 2.71 mm

Right Eye:
  Mean: 2.28 mm
  Std: 0.10 mm
  Min: 2.09 mm
  Max: 2.53 mm

--- CSV Data ---
Frame,Eye_Type,Diameter_mm
0,left_eye,2.3495993614196777
1,left_eye,2.3160369396209717
2,left_eye,2.31215500831604
3,left_eye,2.2922122478485107
4,left_eye,2.3858745098114014
5,left_eye,2.389317035675049"

/-! ### Specification-side definitions

The definitions below restate, in plain mathematical form, what the claims
say the code computes.  The theorems connect them to the source-traced
definitions above. -/

/-- The threshold map of the fatigue classifier as the spec states it,
applied to an already-computed average. -/
def classifyAvg (avg : JSNum) : FatigueLevel :=
  if avg.lt (JSNum.num (11 / 5)) then FatigueLevel.high
  else if (JSNum.num (13 / 5)).lt avg then FatigueLevel.low
  else FatigueLevel.moderate

/-- Arithmetic mean of a list of rationals. -/
def qMean (xs : List ℚ) : ℚ := xs.sum / xs.length

/-- Population variance (divide by `N`, not `N − 1`). -/
def qPopVar (xs : List ℚ) : ℚ :=
  ((xs.map (fun v => (v - qMean xs) ^ 2)).sum) / xs.length

/-- Literal minimum of a list of rationals (`0` on the empty list, which
never arises in the statements below). -/
def qMinOf (xs : List ℚ) : ℚ := xs.foldl min (xs.headD 0)

/-- Literal maximum of a list of rationals. -/
def qMaxOf (xs : List ℚ) : ℚ := xs.foldl max (xs.headD 0)

/-- The pupil adjustment of the eye-test reaction-time generator, as a
closed form: `+50` for a truthy average below 2.0, `−25` above 3.0, `0`
otherwise (including the falsy average `0` and the absent average). -/
def adjET : Option ℚ → ℚ
  | none => 0
  | some q => if q = 0 then 0 else if q < 2 then 50 else if 3 < q then -25 else 0

/-- Characters that can occur in a well-formed data row: digits, the
comma, the decimal point, and the letters of the six recognized eye
labels. -/
def rowCh (c : Char) : Bool :=
  isDigitCh c || c = ',' || c = '.' || ("leftyrigh_LR".data).contains c

/-- A well-formed `frame,eye,diameter` row in the sense of the round-trip
claim: exactly three comma-separated fields, a nonempty all-digit frame,
one of the six recognized eye labels, and a plain decimal diameter
(digits with an optional fractional part). -/
def wellFormedRow (l : List Char) : Bool :=
  match splitChar l ',' with
  | [f, e, d] =>
    (!f.isEmpty && f.all isDigitCh) &&
    (e = "left_eye".data || e = "right_eye".data || e = "left".data ||
      e = "Left".data || e = "right".data || e = "Right".data) &&
    (let ip := d.takeWhile isDigitCh
     let r := d.drop ip.length
     !ip.isEmpty && (r.isEmpty || (r.headD ' ' = '.' && r.tail.all isDigitCh)))
  | _ => false

/-- The sample a well-formed row denotes: parsed frame and diameter, eye
label normalized by the rule the claim states (`left_eye`, `left`, `Left`
to the left eye; `right_eye`, `right`, `Right` to the right). -/
def rowSample (l : List Char) : PupilData :=
  match splitChar l ',' with
  | f :: e :: d :: _ =>
    { frame := (jsParseInt f).getD 0
      eye := if e = "left_eye".data || e = "left".data || e = "Left".data
        then EyeKind.left_eye else EyeKind.right_eye
      diameter := (jsParseFloat d).getD (JSNum.num 0) }
  | _ => ⟨0, EyeKind.left_eye, JSNum.num 0⟩

/-- What a candidate data row with fields `p0, p1, p2` contributes to the
sample list: one sample exactly when the frame parses (not `NaN`), the
diameter parses (not `NaN`; infinities are accepted), and the normalized
eye label is recognized; nothing otherwise. -/
def rowResult (p0 p1 p2 : List Char) : List PupilData :=
  match jsParseInt p0, jsParseFloat p2 with
  | some f, some d =>
    if normalizeEye (trimChars p1) = "left_eye".data then
      [⟨f, EyeKind.left_eye, d⟩]
    else if normalizeEye (trimChars p1) = "right_eye".data then
      [⟨f, EyeKind.right_eye, d⟩]
    else []
  | _, _ => []

/-- Join line strings with a separator character (the inverse image of
`splitChar`; a report "consisting only of N well-formed lines" is
`joinLines` of those lines). -/
def joinParts (c : Char) : List (List Char) → List Char
  | [] => []
  | [l] => l
  | l :: l' :: ls => l ++ c :: joinParts c (l' :: ls)

/-- A newline-separated report built from the given lines. -/
def joinLines (ls : List (List Char)) : List Char := joinParts '\n' ls


/-! ### Concrete-run theorems -/

set_option maxRecDepth 1000000

/-- C10: the frame check is integer-prefix parsing: a negative frame
`-5` and a numeric-prefix frame `3.7` (truncated to `3`) are both
accepted, not dropped. -/
theorem parse_frame_integer_prefix :
    (parseResultData "-5,left_eye,2.3".data).1 =
      [⟨-5, EyeKind.left_eye, JSNum.num (23 / 10)⟩] ∧
    (parseResultData "3.7,left_eye,2.3".data).1 =
      [⟨3, EyeKind.left_eye, JSNum.num (23 / 10)⟩] := by
  constructor <;> decide

/-- C6 (counterexample): a row whose diameter field reads `Infinity` is
*accepted* with a non-finite diameter — `parseFloat` only rules out `NaN`,
not the infinities — contradicting the claim that a row with a non-finite
diameter is dropped. -/
theorem parse_accepts_infinite_diameter :
    (parseResultData "1,left_eye,Infinity".data).1 =
      [⟨1, EyeKind.left_eye, JSNum.posInf⟩] := by
  decide

/-- C1 (counterexample): a present-but-zero-mean `EyeStats` is *not*
excluded from the classifier's average.  With only a zero-filled left eye
the claim predicts `moderate` (no eligible eye); the code averages the
present mean `0` and returns `high`.  Invoked from the pipeline with only
right-eye samples of diameter 2.4, the claim predicts `moderate`
(determined by `2.4` alone); the code averages in the zero left mean
(`avg = 1.2`) and returns `high`. -/
theorem fatigue_counts_zero_mean_eye :
    determineFatigueLevel (some ⟨JSNum.num 0, JSNum.num 0, JSNum.num 0, JSNum.num 0⟩)
      none = FatigueLevel.high ∧
    ((processAndSaveAnalysis "0,right_eye,2.4\n1,right_eye,2.4".data 0
        ⟨0, 0, 0, 0⟩).1.toOption.map (fun d => d.fatigueLevel)) =
      some FatigueLevel.high := by
  constructor <;> decide

/-- C2 (counterexample): on the bundled sample report the assembled
record's fatigue level is not `high` — the combined average is ≈2.308,
which lies between the thresholds 2.2 and 2.6. -/
theorem sample_fatigue_not_high :
    ((processAndSaveAnalysis sampleResultText.data (1 / 2)
        ⟨1 / 2, 0, 0, 0⟩).1.toOption.map (fun d => d.fatigueLevel)) ≠
      some FatigueLevel.high := by
  decide

/-- C2 (amended): on the bundled sample report the assembled record has
`fatigueLevel = moderate` and both per-eye statistics present. -/
theorem sample_record_moderate_both_eyes :
    ((processAndSaveAnalysis sampleResultText.data (1 / 2)
        ⟨1 / 2, 0, 0, 0⟩).1.toOption.map
      (fun d => (d.fatigueLevel, d.leftEyeStats.isSome, d.rightEyeStats.isSome))) =
      some (FatigueLevel.moderate, true, true) := by
  decide

/-! ### Classifier theorems -/

theorem JSNum.zero_add_eq (m : JSNum) : (JSNum.num 0).add m = m := by
  cases m <;> simp [JSNum.add]

theorem JSNum.divNat_one (m : JSNum) : m.divNat 1 = m := by
  cases m <;> simp [JSNum.divNat]

/-- C4: on eligible (finite) means the classifier is exactly the
threshold map: `high` iff the average is below 2.2, `low` iff above 2.6,
`moderate` on the closed middle interval — shown for a single present eye
(average = its mean) and for two present eyes (average of the two means),
together with the claim's boundary cases 2.2, 2.6, 2.19 and 2.61. -/
theorem fatigue_thresholds :
    (∀ (a : ℚ) (v mn mx : JSNum),
      determineFatigueLevel (some ⟨JSNum.num a, v, mn, mx⟩) none =
        (if a < 11 / 5 then FatigueLevel.high
         else if 13 / 5 < a then FatigueLevel.low
         else FatigueLevel.moderate)) ∧
    (∀ (a b : ℚ) (v mn mx v' mn' mx' : JSNum),
      determineFatigueLevel (some ⟨JSNum.num a, v, mn, mx⟩)
          (some ⟨JSNum.num b, v', mn', mx'⟩) =
        (if (a + b) / 2 < 11 / 5 then FatigueLevel.high
         else if 13 / 5 < (a + b) / 2 then FatigueLevel.low
         else FatigueLevel.moderate)) ∧
    determineFatigueLevel (some ⟨JSNum.num (11 / 5), JSNum.num 0, JSNum.num 0,
      JSNum.num 0⟩) none = FatigueLevel.moderate ∧
    determineFatigueLevel (some ⟨JSNum.num (13 / 5), JSNum.num 0, JSNum.num 0,
      JSNum.num 0⟩) none = FatigueLevel.moderate ∧
    determineFatigueLevel (some ⟨JSNum.num (219 / 100), JSNum.num 0, JSNum.num 0,
      JSNum.num 0⟩) none = FatigueLevel.high ∧
    determineFatigueLevel (some ⟨JSNum.num (261 / 100), JSNum.num 0, JSNum.num 0,
      JSNum.num 0⟩) none = FatigueLevel.low := by
  refine ⟨?_, ?_, by decide, by decide, by decide, by decide⟩
  · intro a v mn mx
    simp [determineFatigueLevel, JSNum.add, JSNum.divNat, JSNum.lt, zero_add]
  · intro a b v mn mx v' mn' mx'
    simp [determineFatigueLevel, JSNum.add, JSNum.divNat, JSNum.lt, zero_add]
    norm_num

/-- C1 (amended): the classifier averages over the *present* stats
objects regardless of their means — `moderate` only when both are absent,
a single present eye classified by its own mean, two present eyes by the
mean of the two means.  Since the assembly pipeline always passes both
(possibly zero-filled) stats objects, its fatigue level is always the
threshold map applied to `(leftMean + rightMean) / 2`; a zero-samples eye
contributes `0` to that average instead of being excluded. -/
theorem fatigue_presence_average :
    (∀ l r : Option EyeStats,
      determineFatigueLevel l r =
        match l, r with
        | none, none => FatigueLevel.moderate
        | some a, none => classifyAvg a.mean
        | none, some b => classifyAvg b.mean
        | some a, some b => classifyAvg ((a.mean.add b.mean).divNat 2)) ∧
    (∀ (text : List Char) (rt : ℚ) (rnd : Randoms),
      (parseResultData text).1 ≠ [] →
      ((processAndSaveAnalysis text rt rnd).1.toOption.map (fun d => d.fatigueLevel)) =
        some (classifyAvg
          (((calculateEyeStats (parseResultData text).1 EyeKind.left_eye).mean.add
            (calculateEyeStats (parseResultData text).1 EyeKind.right_eye).mean).divNat
            2))) := by
  have hmatch : ∀ l r : Option EyeStats,
      determineFatigueLevel l r =
        match l, r with
        | none, none => FatigueLevel.moderate
        | some a, none => classifyAvg a.mean
        | none, some b => classifyAvg b.mean
        | some a, some b => classifyAvg ((a.mean.add b.mean).divNat 2) := by
    rintro (_ | a) (_ | b)
    · rfl
    · simp [determineFatigueLevel, classifyAvg, JSNum.zero_add_eq, JSNum.divNat_one]
    · simp [determineFatigueLevel, classifyAvg, JSNum.zero_add_eq, JSNum.divNat_one]
    · simp [determineFatigueLevel, classifyAvg, JSNum.zero_add_eq]
  refine ⟨hmatch, ?_⟩
  intro text rt rnd h
  have hlen : ¬ ((parseResultData text).1.length = 0) := by
    simpa [List.length_eq_zero] using h
  simp only [processAndSaveAnalysis, if_neg hlen]
  simp [Except.toOption, hmatch]

/-- Witness for `fatigue_presence_average` at a concrete one-eyed report. -/
theorem fatigue_presence_average_witness :
    (parseResultData "0,right_eye,2.4".data).1 ≠ [] ∧
    ((processAndSaveAnalysis "0,right_eye,2.4".data 0 ⟨0, 0, 0, 0⟩).1.toOption.map
      (fun d => d.fatigueLevel)) =
      some (classifyAvg
        (((calculateEyeStats (parseResultData "0,right_eye,2.4".data).1
            EyeKind.left_eye).mean.add
          (calculateEyeStats (parseResultData "0,right_eye,2.4".data).1
            EyeKind.right_eye).mean).divNat 2)) :=
  ⟨by decide, fatigue_presence_average.2 "0,right_eye,2.4".data 0 ⟨0, 0, 0, 0⟩ (by decide)⟩

/-- C8: when the parse yields zero samples, both pipelines return the
descriptive `NoValidData` failure and hand nothing to the store — neither
an analysis record nor an eye-test record is written. -/
theorem empty_parse_no_write (text : List Char) (rt : ℚ) (rnd rndET : Randoms)
    (ttype : List Char) (tdur : ℚ) (h : (parseResultData text).1 = []) :
    processAndSaveAnalysis text rt rndET =
      (Except.error "No valid pupil data found in results", [], []) ∧
    processEyeTestResult text rnd ttype tdur =
      (Except.error "No valid pupil data found in results", []) := by
  have hlen : (parseResultData text).1.length = 0 := by simp [h]
  constructor
  · simp only [processAndSaveAnalysis, if_pos hlen]
  · simp only [processEyeTestResult, if_pos hlen]

/-- Witness for `empty_parse_no_write` on a report with no valid rows. -/
theorem empty_parse_no_write_witness :
    (parseResultData "no pupil rows here".data).1 = [] ∧
    processAndSaveAnalysis "no pupil rows here".data 0 ⟨0, 0, 0, 0⟩ =
      (Except.error "No valid pupil data found in results", [], []) ∧
    processEyeTestResult "no pupil rows here".data ⟨0, 0, 0, 0⟩ "blink_test".data 30 =
      (Except.error "No valid pupil data found in results", []) :=
  ⟨by decide,
    empty_parse_no_write "no pupil rows here".data 0 ⟨0, 0, 0, 0⟩ ⟨0, 0, 0, 0⟩
      "blink_test".data 30 (by decide)⟩

/-! ### Reaction-time theorems -/

/-- C9 (counterexample): the analysis-service reaction-time generator does
not apply a flat `+50 ms` adjustment below pupil size 2.0 — its adjustment
is the continuous `(3.0 − avg) · 50`.  At `moderate` with average `0.5`
and a middle random draw the result is 475 ms, above the 450 ms maximum
the claim allows for `moderate` (base at most 400 plus exactly 50). -/
theorem reaction_time_not_flat_adjustment :
    generateMockReactionTime FatigueLevel.moderate (some (1 / 2)) (1 / 2) = 475 ∧
    ¬ (generateMockReactionTime FatigueLevel.moderate (some (1 / 2)) (1 / 2) ≤ 450) := by
  constructor <;> decide

/-- C9 (amended): for any level, any optional average and any draw
`r ∈ [0,1)`: the analysis-service variant is floor-clamped at 200 ms; the
eye-test variant is never below 225 ms (hence never below 200 ms), equals
the rounded sum of its base value and the discrete adjustment (+50 for a
truthy average < 2.0, −25 above 3.0, 0 otherwise — the falsy average `0`
gets no adjustment), and its base value lies in the level's range
([250,300] / [300,400] / [400,550]). -/
theorem reaction_time_amended (f : FatigueLevel) (a : Option ℚ) (r : ℚ)
    (h0 : 0 ≤ r) (h1 : r < 1) :
    200 ≤ generateMockReactionTime f a r ∧
    225 ≤ generateMockReactionTimeET f a r ∧
    generateMockReactionTimeET f a r = jsRound (baseReactionTimeET f r + adjET a) ∧
    (match f with
     | FatigueLevel.low => (250 : ℚ)
     | FatigueLevel.moderate => 300
     | FatigueLevel.high => 400) ≤ baseReactionTimeET f r ∧
    baseReactionTimeET f r ≤
      (match f with
       | FatigueLevel.low => (300 : ℚ)
       | FatigueLevel.moderate => 400
       | FatigueLevel.high => 550) := by
  have hbase_lo : (250 : ℚ) ≤ baseReactionTimeET f r := by
    cases f <;> simp [baseReactionTimeET] <;> nlinarith
  have hadj_lo : (-25 : ℚ) ≤ adjET a := by
    rcases a with _ | q
    · norm_num [adjET]
    · simp only [adjET]
      split
      · norm_num
      · split <;> [norm_num; split <;> norm_num]
  have heq : generateMockReactionTimeET f a r =
      jsRound (baseReactionTimeET f r + adjET a) := by
    rcases a with _ | q
    · simp [generateMockReactionTimeET, adjET]
    · simp only [generateMockReactionTimeET, adjET]
      rcases eq_or_ne q 0 with hq | hq
      · simp [hq]
      · rcases lt_or_le q 2 with h2 | h2
        · simp [hq, h2]
        · rcases lt_or_le 3 q with h3 | h3
          · simp only [hq, if_neg hq, if_neg (not_lt.mpr h2), if_pos h3, if_false]
            ring_nf
          · simp [hq, not_lt.mpr h2, not_lt.mpr h3]
  refine ⟨le_max_left _ _, ?_, heq, ?_, ?_⟩
  · rw [heq]
    have : (225 : ℚ) ≤ baseReactionTimeET f r + adjET a := by linarith
    have : ((225 : Int) : ℚ) ≤ baseReactionTimeET f r + adjET a + 1 / 2 := by
      push_cast
      linarith
    simpa [jsRound] using Int.le_floor.mpr this
  · cases f <;> simp [baseReactionTimeET] <;> nlinarith
  · cases f <;> simp [baseReactionTimeET] <;> nlinarith

/-- Witness for `reaction_time_amended` at `moderate`, average `0`,
draw `1/2`. -/
theorem reaction_time_amended_witness :
    (0 ≤ (1 / 2 : ℚ) ∧ (1 / 2 : ℚ) < 1) ∧
    200 ≤ generateMockReactionTime FatigueLevel.moderate (some 0) (1 / 2) ∧
    225 ≤ generateMockReactionTimeET FatigueLevel.moderate (some 0) (1 / 2) :=
  ⟨⟨by norm_num, by norm_num⟩,
    (reaction_time_amended FatigueLevel.moderate (some 0) (1 / 2) (by norm_num)
      (by norm_num)).1,
    (reaction_time_amended FatigueLevel.moderate (some 0) (1 / 2) (by norm_num)
      (by norm_num)).2.1⟩

/-! ### Statistics-engine theorems -/

theorem foldl_add_num (ds : List ℚ) (a : ℚ) :
    (ds.map JSNum.num).foldl JSNum.add (JSNum.num a) = JSNum.num (a + ds.sum) := by
  induction ds generalizing a with
  | nil => simp
  | cons x t ih => simp [JSNum.add, ih, add_assoc]

theorem foldl_sq_num (ds : List ℚ) (c a : ℚ) :
    (ds.map JSNum.num).foldl (fun s v => s.add ((v.sub (JSNum.num c)).sq))
      (JSNum.num a) = JSNum.num (a + (ds.map (fun v => (v - c) ^ 2)).sum) := by
  induction ds generalizing a with
  | nil => simp
  | cons x t ih =>
    have hstep : (JSNum.num a).add (((JSNum.num x).sub (JSNum.num c)).sq) =
        JSNum.num (a + (x - c) ^ 2) := by
      simp only [JSNum.sub, JSNum.neg, JSNum.add, JSNum.sq]
      rw [sub_eq_add_neg]
    rw [List.map_cons, List.foldl_cons, hstep, ih, List.map_cons, List.sum_cons,
      add_assoc]

theorem foldl_min_num (ds : List ℚ) (m : ℚ) :
    (ds.map JSNum.num).foldl JSNum.minJS (JSNum.num m) =
      JSNum.num (ds.foldl min m) := by
  induction ds generalizing m with
  | nil => simp
  | cons x t ih =>
    have hstep : JSNum.minJS (JSNum.num m) (JSNum.num x) = JSNum.num (min m x) := by
      rcases lt_or_le x m with h | h
      · simp [JSNum.minJS, JSNum.lt, h, min_eq_right h.le]
      · simp [JSNum.minJS, JSNum.lt, not_lt.mpr h, min_eq_left h]
    simp [hstep, ih]

theorem foldl_max_num (ds : List ℚ) (m : ℚ) :
    (ds.map JSNum.num).foldl JSNum.maxJS (JSNum.num m) =
      JSNum.num (ds.foldl max m) := by
  induction ds generalizing m with
  | nil => simp
  | cons x t ih =>
    have hstep : JSNum.maxJS (JSNum.num m) (JSNum.num x) = JSNum.num (max m x) := by
      rcases lt_or_le m x with h | h
      · simp [JSNum.maxJS, JSNum.lt, h, max_eq_right h.le]
      · simp [JSNum.maxJS, JSNum.lt, not_lt.mpr h, max_eq_left h]
    simp [hstep, ih]

/-- C3: on a sample list whose diameters for the requested eye are the
finite values `ds`, `calculateEyeStats` returns the zero-filled record
when `ds` is empty, and otherwise the arithmetic mean, the population
variance (divide by `N`, not `N − 1` — the source stores its square root
as `std`, recorded here as `std2`), and the literal minimum and maximum. -/
theorem calculateEyeStats_spec (data : List PupilData) (eye : EyeKind) (ds : List ℚ)
    (h : (data.filter (fun d => d.eye = eye)).map (fun d => d.diameter) =
      ds.map JSNum.num) :
    calculateEyeStats data eye =
      if ds = [] then ⟨JSNum.num 0, JSNum.num 0, JSNum.num 0, JSNum.num 0⟩
      else ⟨JSNum.num (qMean ds), JSNum.num (qPopVar ds), JSNum.num (qMinOf ds),
        JSNum.num (qMaxOf ds)⟩ := by
  rcases ds with _ | ⟨x, t⟩
  · simp only [List.map_nil] at h
    simp [calculateEyeStats, h]
  · have hne : ¬ ((x :: t).map JSNum.num).length = 0 := by simp
    simp only [calculateEyeStats, h, hne, if_false, if_neg hne]
    have hlen : ((x :: t).map JSNum.num).length = t.length + 1 := by simp
    have hmean : ((((x :: t).map JSNum.num).foldl JSNum.add (JSNum.num 0)).divNat
        (((x :: t).map JSNum.num).length)) = JSNum.num (qMean (x :: t)) := by
      rw [foldl_add_num, hlen]
      simp only [JSNum.divNat, qMean]
      norm_num
    rw [hmean]
    have hvar : ((((x :: t).map JSNum.num).foldl
        (fun s v => s.add ((v.sub (JSNum.num (qMean (x :: t)))).sq)) (JSNum.num 0)).divNat
        (((x :: t).map JSNum.num).length)) = JSNum.num (qPopVar (x :: t)) := by
      rw [foldl_sq_num, hlen]
      simp only [JSNum.divNat, qPopVar]
      norm_num
    rw [hvar]
    have hmin : (((x :: t).map JSNum.num).foldl JSNum.minJS JSNum.posInf) =
        JSNum.num (qMinOf (x :: t)) := by
      have hfirst : JSNum.minJS JSNum.posInf (JSNum.num x) = JSNum.num x := by
        simp [JSNum.minJS, JSNum.lt]
      simp only [List.map_cons, List.foldl_cons, hfirst, foldl_min_num]
      simp [qMinOf]
    have hmax : (((x :: t).map JSNum.num).foldl JSNum.maxJS JSNum.negInf) =
        JSNum.num (qMaxOf (x :: t)) := by
      have hfirst : JSNum.maxJS JSNum.negInf (JSNum.num x) = JSNum.num x := by
        simp [JSNum.maxJS, JSNum.lt]
      simp only [List.map_cons, List.foldl_cons, hfirst, foldl_max_num]
      simp [qMaxOf]
    rw [hmin, hmax, if_neg (List.cons_ne_nil x t)]

/-- Witness for `calculateEyeStats_spec`: same-eye diameters
`[2, 2, 4, 4]` give mean 3 and variance 1 (population std-dev 1), with
literal min 2 and max 4. -/
theorem calculateEyeStats_spec_witness :
    (([⟨0, EyeKind.left_eye, JSNum.num 2⟩, ⟨1, EyeKind.left_eye, JSNum.num 2⟩,
        ⟨2, EyeKind.left_eye, JSNum.num 4⟩, ⟨3, EyeKind.left_eye, JSNum.num 4⟩] :
          List PupilData).filter (fun d => d.eye = EyeKind.left_eye)).map
        (fun d => d.diameter) = ([2, 2, 4, 4] : List ℚ).map JSNum.num ∧
    calculateEyeStats
        [⟨0, EyeKind.left_eye, JSNum.num 2⟩, ⟨1, EyeKind.left_eye, JSNum.num 2⟩,
          ⟨2, EyeKind.left_eye, JSNum.num 4⟩, ⟨3, EyeKind.left_eye, JSNum.num 4⟩]
        EyeKind.left_eye =
      ⟨JSNum.num 3, JSNum.num 1, JSNum.num 2, JSNum.num 4⟩ := by
  refine ⟨by decide, ?_⟩
  rw [calculateEyeStats_spec _ EyeKind.left_eye ([2, 2, 4, 4] : List ℚ) (by decide)]
  decide

/-! ### Trend-analyzer theorems -/

theorem sumQ_eq_sum (xs : List ℚ) : sumQ xs = xs.sum := by
  rw [sumQ, List.sum_eq_foldl]

theorem foldl_add_sq (c : ℚ) (xs : List ℚ) (a : ℚ) :
    xs.foldl (fun s v => s + (v - c) ^ 2) a = a + (xs.map (fun v => (v - c) ^ 2)).sum := by
  induction xs generalizing a with
  | nil => simp
  | cons x t ih => rw [List.foldl_cons, ih, List.map_cons, List.sum_cons, add_assoc]

/-- C7: the trend analyzer returns `insufficient` on fewer than 2 points
and otherwise classifies, in order: `declining` when the second-half mean
exceeds the first-half mean by less than −0.1, `improving` above +0.1,
`variable` when the population variance of the whole series exceeds
`0.15² = 9/400` (the source compares the population std-dev against 0.15),
else `stable`; the first half is the `⌈n/2⌉` earliest points. -/
theorem generateConclusions_spec (data : List DataPoint) :
    generateConclusions data =
      if data.length < 2 then Trend.insufficient
      else
        let xs := data.map (fun d => d.pupilDiameter)
        let k := (xs.length + 1) / 2
        let delta := (xs.drop k).sum / ((xs.drop k).length : ℚ) -
          (xs.take k).sum / ((xs.take k).length : ℚ)
        if delta < -(1 / 10) then Trend.declining
        else if delta > 1 / 10 then Trend.improving
        else if qPopVar xs > 9 / 400 then Trend.variable_
        else Trend.stable := by
  by_cases h : data.length < 2
  · simp [generateConclusions, h]
  · simp only [generateConclusions, h, if_false, sumQ_eq_sum, foldl_add_sq, zero_add,
      qPopVar, qMean]

/-! ### Parser round-trip: split/join lemmas -/

theorem splitCharAux_ne_nil (c : Char) (l acc : List Char) :
    splitCharAux c l acc ≠ [] := by
  induction l generalizing acc with
  | nil => simp [splitCharAux]
  | cons x xs ih =>
    rw [splitCharAux]
    split
    · simp
    · exact ih _

theorem joinParts_splitCharAux (c : Char) (l : List Char) :
    ∀ acc, joinParts c (splitCharAux c l acc) = acc.reverse ++ l := by
  induction l with
  | nil => intro acc; simp [splitCharAux, joinParts]
  | cons x xs ih =>
    intro acc
    rw [splitCharAux]
    split
    · rename_i hx
      subst hx
      have hne := splitCharAux_ne_nil x xs ([] : List Char)
      rcases hp : splitCharAux x xs ([] : List Char) with _ | ⟨p, ps⟩
      · exact absurd hp hne
      · rw [joinParts]
        rw [← hp, ih []]
        simp
  -- leaving the non-separator branch to the accumulator recursion
    · rw [ih (x :: acc)]
      simp

/-- `splitChar` and `joinParts` are inverse: joining the pieces with the
separator gives back the original string. -/
theorem joinParts_splitChar (c : Char) (l : List Char) :
    joinParts c (splitChar l c) = l := by
  simpa using joinParts_splitCharAux c l []

theorem splitCharAux_all_ne (c : Char) (l acc : List Char)
    (h : ∀ x ∈ l, x ≠ c) : splitCharAux c l acc = [acc.reverse ++ l] := by
  induction l generalizing acc with
  | nil => simp [splitCharAux]
  | cons x xs ih =>
    rw [splitCharAux, if_neg (h x (List.mem_cons_self x xs))]
    rw [ih (x :: acc) (fun y hy => h y (List.mem_cons_of_mem x hy))]
    simp

theorem splitCharAux_append (c : Char) (l₁ l₂ acc : List Char)
    (h : ∀ x ∈ l₁, x ≠ c) :
    splitCharAux c (l₁ ++ c :: l₂) acc =
      (acc.reverse ++ l₁) :: splitCharAux c l₂ [] := by
  induction l₁ generalizing acc with
  | nil => simp [splitCharAux]
  | cons x xs ih =>
    rw [List.cons_append, splitCharAux, if_neg (h x (List.mem_cons_self x xs))]
    rw [ih (x :: acc) (fun y hy => h y (List.mem_cons_of_mem x hy))]
    simp

/-- Splitting a separator-joined line list gives back the lines, provided
no line contains the separator. -/
theorem splitChar_joinParts (c : Char) (ls : List (List Char)) (hne : ls ≠ [])
    (h : ∀ l ∈ ls, ∀ x ∈ l, x ≠ c) : splitChar (joinParts c ls) c = ls := by
  induction ls with
  | nil => exact absurd rfl hne
  | cons l rest ih =>
    rcases rest with _ | ⟨l', rest'⟩
    · rw [joinParts, splitChar,
        splitCharAux_all_ne c l [] (h l (List.mem_cons_self l []))]
      simp
    · rw [joinParts, splitChar,
        splitCharAux_append c l (joinParts c (l' :: rest')) []
          (h l (List.mem_cons_self l (l' :: rest')))]
      have := ih (by simp) (fun m hm x hx => h m (List.mem_cons_of_mem l hm) x hx)
      rw [splitChar] at this
      rw [this]
      simp

/-! ### Parser round-trip: well-formed rows -/

theorem wellFormedRow_destruct (l : List Char) (h : wellFormedRow l = true) :
    ∃ f e d, splitChar l ',' = [f, e, d] ∧
      l = f ++ ',' :: (e ++ ',' :: d) ∧
      (!f.isEmpty && f.all isDigitCh) = true ∧
      (e = "left_eye".data ∨ e = "right_eye".data ∨ e = "left".data ∨
        e = "Left".data ∨ e = "right".data ∨ e = "Right".data) ∧
      (!(d.takeWhile isDigitCh).isEmpty &&
        ((d.drop (d.takeWhile isDigitCh).length).isEmpty ||
          ((d.drop (d.takeWhile isDigitCh).length).headD ' ' = '.' &&
            (d.drop (d.takeWhile isDigitCh).length).tail.all isDigitCh))) = true := by
  rw [wellFormedRow] at h
  rcases hs : splitChar l ',' with _ | ⟨f, _ | ⟨e, _ | ⟨d, _ | ⟨x, xs⟩⟩⟩⟩ <;> rw [hs] at h
  · simp at h
  · simp at h
  · simp at h
  · refine ⟨f, e, d, rfl, ?_, ?_, ?_, ?_⟩
    · have hj := joinParts_splitChar ',' l
      rw [hs] at hj
      simpa [joinParts] using hj.symm
    · simp only [Bool.and_eq_true] at h
      exact (Bool.and_eq_true _ _).mpr ⟨h.1.1.1, h.1.1.2⟩
    · simp only [Bool.and_eq_true, Bool.or_eq_true, decide_eq_true_eq] at h
      tauto
    · simp only [Bool.and_eq_true] at h
      rcases h with ⟨⟨_, _⟩, h2⟩
      exact (Bool.and_eq_true _ _).mpr h2
  · simp at h

theorem takeWhile_append_drop (p : Char → Bool) (l : List Char) :
    l.takeWhile p ++ l.drop (l.takeWhile p).length = l := by
  induction l with
  | nil => rfl
  | cons x t ih =>
    rw [List.takeWhile_cons]
    split
    · simpa using ih
    · simp

theorem wf_chars (l : List Char) (h : wellFormedRow l = true) :
    ∀ x ∈ l, rowCh x = true := by
  obtain ⟨f, e, d, _, hl, hf, he, hd⟩ := wellFormedRow_destruct l h
  subst hl
  simp only [Bool.and_eq_true] at hf hd
  intro x hx
  simp only [List.mem_append, List.mem_cons] at hx
  rcases hx with hx | rfl | hx | rfl | hx
  · have := (List.all_eq_true.mp hf.2) x hx
    simp [rowCh, this]
  · decide
  · rcases he with rfl | rfl | rfl | rfl | rfl | rfl <;> (fin_cases hx <;> decide)
  · decide
  · rw [← takeWhile_append_drop isDigitCh d] at hx
    rcases List.mem_append.mp hx with hx | hx
    · have := List.mem_takeWhile_imp hx
      simp [rowCh, this]
    · rcases hr : d.drop (d.takeWhile isDigitCh).length with _ | ⟨c, t⟩
      · rw [hr] at hx
        exact absurd hx (List.not_mem_nil x)
      · rw [hr] at hx hd
        have hd2 := hd.2
        simp only [List.isEmpty_cons, Bool.false_or, Bool.and_eq_true,
          decide_eq_true_eq, List.headD_cons, List.tail_cons] at hd2
        rcases List.mem_cons.mp hx with hx1 | hx2
        · rw [hx1, hd2.1]
          decide
        · have := (List.all_eq_true.mp hd2.2) x hx2
          simp [rowCh, this]

theorem rowCh_ws (c : Char) (h : rowCh c = true) : isWsCh c = false := by
  by_contra hw
  rw [Bool.not_eq_false] at hw
  simp only [isWsCh, Bool.or_eq_true, decide_eq_true_eq] at hw
  rcases hw with ((((rfl | rfl) | rfl) | rfl) | rfl) | rfl <;> exact absurd h (by decide)

theorem dropWhile_of_all_false (p : Char → Bool) (l : List Char)
    (h : ∀ x ∈ l, p x = false) : l.dropWhile p = l := by
  cases l with
  | nil => rfl
  | cons x t => simp [List.dropWhile_cons, h x (List.mem_cons_self x t)]

theorem trim_of_rowCh (l : List Char) (h : ∀ x ∈ l, rowCh x = true) :
    trimChars l = l := by
  have h1 : ∀ x ∈ l, isWsCh x = false := fun x hx => rowCh_ws x (h x hx)
  rw [trimChars, dropWhile_of_all_false _ _ h1, dropWhile_of_all_false, List.reverse_reverse]
  intro x hx
  exact h1 x (List.mem_reverse.mp hx)

theorem not_includes_of_chars (l sub : List Char) (c : Char) (hcsub : c ∈ sub)
    (hl : ∀ x ∈ l, rowCh x = true) (hc : rowCh c = false) :
    includesStr l sub = false := by
  rw [includesStr]
  apply decide_eq_false
  intro hinf
  have := hl c (hinf.subset hcsub)
  rw [hc] at this
  exact Bool.false_ne_true this

theorem ne_of_chars (l m : List Char) (c : Char) (hcm : c ∈ m)
    (hl : ∀ x ∈ l, rowCh x = true) (hc : rowCh c = false) : l ≠ m := by
  intro he
  have := hl c (he ▸ hcm)
  rw [hc] at this
  exact Bool.false_ne_true this

theorem takeWhile_of_all (p : Char → Bool) (l : List Char)
    (h : ∀ x ∈ l, p x = true) : l.takeWhile p = l := by
  induction l with
  | nil => rfl
  | cons x t ih =>
    rw [List.takeWhile_cons, if_pos (h x (List.mem_cons_self x t))]
    rw [ih (fun y hy => h y (List.mem_cons_of_mem x hy))]

theorem digit_rowCh (c : Char) (h : isDigitCh c = true) : rowCh c = true := by
  simp [rowCh, h]

theorem jsParseInt_digits (f : List Char) (hne : f ≠ [])
    (hdig : ∀ x ∈ f, isDigitCh x = true) :
    jsParseInt f = some ((decValue f : Int)) := by
  rcases f with _ | ⟨a, t⟩
  · exact absurd rfl hne
  have hws : ∀ x ∈ a :: t, isWsCh x = false := fun x hx =>
    rowCh_ws x (digit_rowCh x (hdig x hx))
  have ha := hdig a (List.mem_cons_self a t)
  have ha1 : ¬ (a = '+') := fun hh => by rw [hh] at ha; exact absurd ha (by decide)
  have ha2 : ¬ (a = '-') := fun hh => by rw [hh] at ha; exact absurd ha (by decide)
  have htw : (a :: t).takeWhile isDigitCh = a :: t := takeWhile_of_all _ _ hdig
  rw [jsParseInt]
  simp only [dropWhile_of_all_false _ _ hws, splitSign, if_neg ha1, if_neg ha2]
  rcases t with _ | ⟨b, r⟩
  · simp [htw, hne, one_mul]
  · have hb := hdig b (List.mem_cons_of_mem a (List.mem_cons_self b r))
    have hb1 : ¬ (b = 'x') := fun hh => by rw [hh] at hb; exact absurd hb (by decide)
    have hb2 : ¬ (b = 'X') := fun hh => by rw [hh] at hb; exact absurd hb (by decide)
    simp [hb1, hb2, htw, one_mul]

theorem jsParseFloat_wf (d : List Char)
    (hd : (!(d.takeWhile isDigitCh).isEmpty &&
      ((d.drop (d.takeWhile isDigitCh).length).isEmpty ||
        ((d.drop (d.takeWhile isDigitCh).length).headD ' ' = '.' &&
          (d.drop (d.takeWhile isDigitCh).length).tail.all isDigitCh))) = true) :
    ∃ q : ℚ, jsParseFloat d = some (JSNum.num q) := by
  simp only [Bool.and_eq_true] at hd
  have hdchars : ∀ x ∈ d, rowCh x = true := by
    intro x hx
    rw [← takeWhile_append_drop isDigitCh d] at hx
    rcases List.mem_append.mp hx with hx | hx
    · exact digit_rowCh x (List.mem_takeWhile_imp hx)
    · rcases hr : d.drop (d.takeWhile isDigitCh).length with _ | ⟨c, t⟩
      · rw [hr] at hx
        exact absurd hx (List.not_mem_nil x)
      · rw [hr] at hx hd
        have hd2 := hd.2
        simp only [List.isEmpty_cons, Bool.false_or, Bool.and_eq_true,
          decide_eq_true_eq, List.headD_cons, List.tail_cons] at hd2
        rcases List.mem_cons.mp hx with hx1 | hx2
        · rw [hx1, hd2.1]
          decide
        · exact digit_rowCh x ((List.all_eq_true.mp hd2.2) x hx2)
  have hws : ∀ x ∈ d, isWsCh x = false := fun x hx => rowCh_ws x (hdchars x hx)
  rcases hdd : d with _ | ⟨a, t⟩
  · rw [hdd] at hd
    exact absurd hd.1 (by decide)
  rw [← hdd]
  have htwne : ¬ ((d.takeWhile isDigitCh).isEmpty = true) := by
    simpa using hd.1
  have ha : isDigitCh a = true := by
    by_contra hpa
    rw [Bool.not_eq_true] at hpa
    rw [hdd, List.takeWhile_cons, hpa] at htwne
    simp at htwne
  have ha1 : ¬ (a = '+') := fun hh => by rw [hh] at ha; exact absurd ha (by decide)
  have ha2 : ¬ (a = '-') := fun hh => by rw [hh] at ha; exact absurd ha (by decide)
  have hainf : ¬ (a = 'I') := fun hh => by rw [hh] at ha; exact absurd ha (by decide)
  have hss : splitSign d = (1, d) := by
    rw [hdd, splitSign]
    rw [if_neg ha1, if_neg ha2]
  have hpre : ("Infinity".data).isPrefixOf d = false := by
    rw [hdd]
    have hIa : ('I' == a) = false := beq_eq_false_iff_ne.mpr (fun hh => hainf hh.symm)
    simp [List.isPrefixOf, hIa]
  have hipE : (d.takeWhile isDigitCh).isEmpty = false := by
    have h1 := hd.1
    rwa [Bool.not_eq_true'] at h1
  rw [jsParseFloat, dropWhile_of_all_false _ _ hws]
  simp only [hss, hpre, Bool.false_eq_true, if_false, hipE, Bool.false_and]
  exact ⟨_, rfl⟩

theorem lineStep_wf (st : ParseState) (l : List Char)
    (hsum : st.inSummarySection = false) (h : wellFormedRow l = true) :
    lineStep st l = { st with pupilData := st.pupilData ++ [rowSample l] } := by
  obtain ⟨f, e, d, hs, hl, hf, he, hd⟩ := wellFormedRow_destruct l h
  have hchars := wf_chars l h
  have ht : trimChars l = l := trim_of_rowCh l hchars
  have h1 : includesStr l "Processed".data = false :=
    not_includes_of_chars _ _ 'P' (by decide) hchars (by decide)
  have h2 : ¬ (l = "--- CSV Data ---".data) :=
    ne_of_chars _ _ ' ' (by decide) hchars (by decide)
  have h3 : ¬ (l = "Frame,Eye_Type,Diameter_mm".data) :=
    ne_of_chars _ _ 'F' (by decide) hchars (by decide)
  have h4 : l.contains ',' = true := by
    rw [hl, List.contains, List.elem_eq_mem]
    simp
  simp only [Bool.and_eq_true] at hf
  have hne_f : f ≠ [] := by
    intro hh
    rw [hh] at hf
    exact absurd hf.1 (by decide)
  have hdig_f : ∀ x ∈ f, isDigitCh x = true := List.all_eq_true.mp hf.2
  have hint := jsParseInt_digits f hne_f hdig_f
  obtain ⟨v, hfl⟩ := jsParseFloat_wf d (by
    simp only [Bool.and_eq_true]
    simpa using hd)
  rw [lineStep, ht]
  rw [h1]
  simp only [Bool.false_and, Bool.false_eq_true, if_false, if_neg h2, if_neg h3,
    hsum, Bool.not_eq_true, if_neg (by simp : ¬ ((false && !st.inCSVSection) = true)),
    h4, if_pos rfl, hs]
  rw [rowSample, hs]
  rcases he with rfl | rfl | rfl | rfl | rfl | rfl
  · have hn : normalizeEye (trimChars "left_eye".data) = "left_eye".data := by decide
    simp [hint, hfl, hn]
  · have hn : normalizeEye (trimChars "right_eye".data) = "right_eye".data := by decide
    simp [hint, hfl, hn]
  · have hn : normalizeEye (trimChars "left".data) = "left_eye".data := by decide
    simp [hint, hfl, hn]
  · have hn : normalizeEye (trimChars "Left".data) = "left_eye".data := by decide
    simp [hint, hfl, hn]
  · have hn : normalizeEye (trimChars "right".data) = "right_eye".data := by decide
    simp [hint, hfl, hn]
  · have hn : normalizeEye (trimChars "Right".data) = "right_eye".data := by decide
    simp [hint, hfl, hn]

theorem foldl_lineStep_wf (ls : List (List Char)) :
    ∀ st : ParseState, st.inSummarySection = false →
      (∀ l ∈ ls, wellFormedRow l = true) →
      ls.foldl lineStep st =
        { st with pupilData := st.pupilData ++ ls.map rowSample } := by
  induction ls with
  | nil => intro st _ _; simp
  | cons l rest ih =>
    intro st hsum h
    rw [List.foldl_cons, lineStep_wf st l hsum (h l (List.mem_cons_self l rest))]
    rw [ih { st with pupilData := st.pupilData ++ [rowSample l] } hsum
      (fun m hm => h m (List.mem_cons_of_mem l hm))]
    simp

theorem wf_ne_nil (l : List Char) (h : wellFormedRow l = true) : l ≠ [] := by
  obtain ⟨f, e, d, _, hl, _, _, _⟩ := wellFormedRow_destruct l h
  rw [hl]
  simp

theorem filter_wf (ls : List (List Char)) (h : ∀ l ∈ ls, wellFormedRow l = true) :
    ls.filter (fun l => !(trimChars l).isEmpty) = ls := by
  rw [List.filter_eq_self]
  intro l hl
  rw [trim_of_rowCh l (wf_chars l (h l hl))]
  simpa using wf_ne_nil l (h l hl)

/-- C5: a report consisting only of well-formed `frame,eye,diameter`
lines parses to exactly one sample per line, in input order, with the
frame and diameter read by `parseInt`/`parseFloat` and the eye label
normalized (`left_eye`/`left`/`Left` to the left eye, `right_eye`/
`right`/`Right` to the right), and an empty summary. -/
theorem parse_round_trip (ls : List (List Char))
    (h : ∀ l ∈ ls, wellFormedRow l = true) :
    parseResultData (joinLines ls) = (ls.map rowSample, []) := by
  rcases ls with _ | ⟨l0, rest⟩
  · decide
  · have hnl : ∀ l ∈ l0 :: rest, ∀ x ∈ l, x ≠ '\n' := by
      intro l hl x hx hxe
      have hr := wf_chars l (h l hl) x hx
      rw [hxe] at hr
      exact absurd hr (by decide)
    rw [parseResultData, joinLines, splitChar_joinParts '\n' _ (by simp) hnl]
    rw [filter_wf _ h, foldl_lineStep_wf _ _ rfl h]
    simp [trimChars]

/-- Witness for `parse_round_trip` on a two-line report exercising both an
exact label and a normalized one. -/
theorem parse_round_trip_witness :
    (∀ l ∈ ["1,left_eye,2.3".data, "2,Right,3.5".data], wellFormedRow l = true) ∧
    parseResultData (joinLines ["1,left_eye,2.3".data, "2,Right,3.5".data]) =
      (["1,left_eye,2.3".data, "2,Right,3.5".data].map rowSample, []) ∧
    ["1,left_eye,2.3".data, "2,Right,3.5".data].map rowSample =
      [⟨1, EyeKind.left_eye, JSNum.num (23 / 10)⟩,
        ⟨2, EyeKind.right_eye, JSNum.num (7 / 2)⟩] :=
  ⟨by decide, parse_round_trip _ (by decide), by decide⟩

/-- C6 (amended): a comma-containing candidate row (in a state outside the
summary section, not matching any marker) contributes exactly one sample
when the frame parses to an integer, the diameter parses to a number other
than `NaN` (finite or infinite), and the normalized eye label is
recognized — and contributes nothing otherwise, with the section flags
untouched, so the parser never raises and the remaining rows of the same
report are still parsed.  Concretely, of
`"abc,left_eye,2.3"`, `"1,left_eye,2.5"` and `"1,top_eye,2.3"` only the
middle row survives. -/
theorem parse_row_acceptance :
    (∀ (st : ParseState) (l p0 p1 p2 : List Char) (rest : List (List Char)),
      st.inSummarySection = false →
      (includesStr (trimChars l) "Processed".data &&
        includesStr (trimChars l) "frames".data) = false →
      trimChars l ≠ "--- CSV Data ---".data →
      trimChars l ≠ "Frame,Eye_Type,Diameter_mm".data →
      (trimChars l).contains ',' = true →
      splitChar (trimChars l) ',' = p0 :: p1 :: p2 :: rest →
      (lineStep st l).pupilData = st.pupilData ++ rowResult p0 p1 p2 ∧
      (lineStep st l).inSummarySection = false ∧
      (lineStep st l).inCSVSection = st.inCSVSection) ∧
    (parseResultData "abc,left_eye,2.3\n1,left_eye,2.5\n1,top_eye,2.3".data).1 =
      [⟨1, EyeKind.left_eye, JSNum.num (5 / 2)⟩] := by
  constructor
  · intro st l p0 p1 p2 rest hsum hmark hcsv hhdr hcomma hsplit
    rw [lineStep]
    simp only [hmark, Bool.false_eq_true, if_false, if_neg hcsv, if_neg hhdr, hsum,
      Bool.false_and, hcomma, eq_self_iff_true, if_true, hsplit, rowResult]
    rcases jsParseInt p0 with _ | f <;> rcases jsParseFloat p2 with _ | d
    · exact ⟨by simp, hsum, rfl⟩
    · exact ⟨by simp, hsum, rfl⟩
    · exact ⟨by simp, hsum, rfl⟩
    · by_cases he1 : normalizeEye (trimChars p1) = "left_eye".data
      · simp [he1, hsum]
      · by_cases he2 : normalizeEye (trimChars p1) = "right_eye".data <;>
          simp [he1, he2, hsum]
  · decide

/-- Witness for the row-acceptance characterization at the dropped row
`"1,top_eye,2.3"`. -/
theorem parse_row_acceptance_witness :
    ((⟨[], [], false, false⟩ : ParseState).inSummarySection = false ∧
      (includesStr (trimChars "1,top_eye,2.3".data) "Processed".data &&
        includesStr (trimChars "1,top_eye,2.3".data) "frames".data) = false ∧
      trimChars "1,top_eye,2.3".data ≠ "--- CSV Data ---".data ∧
      trimChars "1,top_eye,2.3".data ≠ "Frame,Eye_Type,Diameter_mm".data ∧
      (trimChars "1,top_eye,2.3".data).contains ',' = true ∧
      splitChar (trimChars "1,top_eye,2.3".data) ',' =
        "1".data :: "top_eye".data :: "2.3".data :: []) ∧
    (lineStep ⟨[], [], false, false⟩ "1,top_eye,2.3".data).pupilData =
      ([] : List PupilData) ++ rowResult "1".data "top_eye".data "2.3".data :=
  ⟨⟨rfl, by decide, by decide, by decide, by decide, by decide⟩,
    (parse_row_acceptance.1 ⟨[], [], false, false⟩ "1,top_eye,2.3".data
      "1".data "top_eye".data "2.3".data [] rfl (by decide) (by decide) (by decide)
      (by decide) (by decide)).1⟩
